import Mathlib

/-!
Shallow embedding of the multi-warehouse route builder
(src/src/fetch_multi.py, class RouteBuilder) and proofs about it.

The embedding models the pipeline engine in value semantics:
* network fetches and local file reads are oracles (functions passed in),
  returning Except String values; an oracle error stands for any exception
  raised by requests / json / file IO at that call site;
* in-place mutation of payload dictionaries is modelled by rebuilding the
  payload value;
* files written to disk are accumulated as a list of write events, and the
  artifact registry as a list of artifact records, in the order the Python
  code performs the corresponding side effects.
-/

namespace FetchMulti

/-! ### Small string helpers (Python semantics) -/

/-- Python falsy-or on an optional string: a missing value or the empty
string falls through to the default (models the idiom
a.get(k) or default, where an empty string is falsy). -/
def pyOrStr : Option String → String → String
  | some s, d => if s = "" then d else s
  | none, d => d

/-- Python str.lower (ASCII case mapping), defined over the character
list so that it evaluates inside the kernel. -/
def lowerStr (s : String) : String :=
  String.mk (s.data.map Char.toLower)

/-- Python str.strip(): drop whitespace at both ends. -/
def stripStr (s : String) : String :=
  String.mk (((s.data.dropWhile Char.isWhitespace).reverse.dropWhile
    Char.isWhitespace).reverse)

/-- Replace every non-overlapping occurrence of a non-empty pattern,
left to right, with enough fuel to scan the whole text. -/
def replaceCharsAux (pat rep : List Char) : Nat → List Char → List Char
  | 0, cs => cs
  | _ + 1, [] => []
  | fuel + 1, c :: rest =>
      if pat.isPrefixOf (c :: rest) ∧ pat ≠ [] then
        rep ++ replaceCharsAux pat rep fuel ((c :: rest).drop pat.length)
      else c :: replaceCharsAux pat rep fuel rest

/-- Python str.replace (for the non-empty patterns used by templating). -/
def replaceStr (s pat rep : String) : String :=
  String.mk (replaceCharsAux pat.data rep.data s.data.length s.data)

/-- Python substring containment (the in operator on str): some split of
the text has the pattern as a prefix of its tail. -/
def strContains (s sub : String) : Bool :=
  (List.range (s.data.length + 1)).any (fun i => sub.data.isPrefixOf (s.data.drop i))

/-- Python str.endswith. -/
def strEndsWith (s suffix : String) : Bool :=
  suffix.data.isSuffixOf s.data

/-- Characters allowed in a URL scheme after the initial letter
(models urllib.parse scheme_chars). -/
def isSchemeChar (c : Char) : Bool :=
  c.isAlphanum || c = '+' || c = '-' || c = '.'

/-- Drop a leading valid scheme: part of the model of
urllib.parse.urlparse used by RouteBuilder._is_blocked. -/
def splitScheme (cs : List Char) : List Char :=
  let pre := cs.takeWhile (fun c => c ≠ ':')
  if pre.length < cs.length then
    match pre with
    | [] => cs
    | c :: rest => if c.isAlpha && rest.all isSchemeChar then cs.drop (pre.length + 1) else cs
  else cs

/-- Model of urllib.parse.urlparse(url).netloc: the text after a leading
double slash (scheme stripped), up to the next slash, question mark or
hash sign; empty when the URL has no authority part. -/
def netloc (url : String) : String :=
  match splitScheme url.data with
  | '/' :: '/' :: rest =>
      String.mk (rest.takeWhile (fun c => c ≠ '/' && c ≠ '?' && c ≠ '#'))
  | _ => ""

/-- Substitute the three placeholders of a public-URL template
(models Python str.format as used in _build_public_urls, where templates
only carry the repo, branch and path keys). -/
def formatTemplate (repo branch path tpl : String) : String :=
  replaceStr (replaceStr (replaceStr tpl "{repo}" repo) "{branch}" branch) "{path}" path

/-! ### Slugify (RouteBuilder._slugify)

unicodedata.normalize("NFKD", v).encode("ascii", "ignore") is an external
library call; it is modelled as dropping non-ASCII code points (faithful on
ASCII input, which is all the proofs below use). -/

/-- Keep only ASCII code points (model of NFKD + ascii/ignore encoding). -/
def asciiFold (cs : List Char) : List Char :=
  cs.filter (fun c => c.toNat < 128)

/-- The regex class [a-zA-Z0-9]. -/
def isAsciiAlphanum (c : Char) : Bool :=
  (('a' ≤ c && c ≤ 'z') || ('A' ≤ c && c ≤ 'Z') || ('0' ≤ c && c ≤ '9'))

/-- Collapse consecutive dashes to one (together with the map below this
models re.sub applied to runs of non-alphanumeric characters). -/
def squeezeDashes : List Char → List Char
  | [] => []
  | [c] => [c]
  | c :: d :: rest =>
      if c = '-' && d = '-' then squeezeDashes (d :: rest)
      else c :: squeezeDashes (d :: rest)

/-- RouteBuilder._slugify: ASCII-fold, collapse non-alphanumeric runs to
single hyphens, strip hyphens at both ends, lower-case, and fall back to
"source" when nothing remains. -/
def slugify (value : String) : String :=
  let cs := asciiFold value.data
  let cs := squeezeDashes (cs.map (fun c => if isAsciiAlphanum c then c else '-'))
  let cs := (cs.dropWhile (fun c => c = '-')).reverse
  let cs := ((cs.dropWhile (fun c => c = '-')).reverse).map Char.toLower
  if cs.isEmpty then "source" else String.mk cs

/-! ### Data model -/

/-- A raw entry as found in fetched or local JSON before sanitization:
a dictionary with optional string fields under canonical or short names. -/
structure RawEntry where
  sourceName : Option String
  name : Option String
  sourceUrl : Option String
  url : Option String
  sourceRemark : Option String
  remark : Option String
deriving Repr, DecidableEq

/-- A sanitized storehouse entry (canonical field names). -/
structure RouteEntry where
  sourceName : String
  sourceUrl : String
  sourceRemark : String
deriving Repr, DecidableEq

/-- A sanitized leaf URL entry. -/
structure UrlEntry where
  name : String
  url : String
deriving Repr, DecidableEq

/-- The three blocklists of the filters configuration. -/
structure Filters where
  blockedKeywords : List String
  blockedUrlKeywords : List String
  blockedDomains : List String
deriving Repr, DecidableEq

/-! ### Sanitizer / filter (RouteBuilder._is_blocked, _sanitize_storehouse,
_sanitize_urls) -/

/-- RouteBuilder._is_blocked: the three blocklist checks, tried in order;
the lists are already lower-cased by the caller. -/
def isBlocked (nm url : String) (blockedKeywords blockedPatterns blockedDomains : List String) :
    Bool :=
  let lowerName := lowerStr nm
  let lowerUrl := lowerStr url
  if blockedKeywords.any (fun k => strContains lowerName k) then true
  else if blockedPatterns.any (fun k => strContains lowerUrl k) then true
  else if !blockedDomains.isEmpty then
    let domain := lowerStr (netloc url)
    blockedDomains.any (fun b => strEndsWith domain b)
  else false

/-- One loop iteration of _sanitize_storehouse: canonicalize field names,
drop entries with a blank name or URL, drop blocked entries, default the
remark to the origin. -/
def sanitizeEntryStorehouse (bk bp bd : List String) (origin : String) (e : RawEntry) :
    Option RouteEntry :=
  let nm := stripStr (pyOrStr e.sourceName (pyOrStr e.name ""))
  let url := stripStr (pyOrStr e.sourceUrl (pyOrStr e.url ""))
  let rm := pyOrStr e.sourceRemark (pyOrStr e.remark "")
  if nm = "" ∨ url = "" then none
  else if isBlocked nm url bk bp bd then none
  else some { sourceName := nm, sourceUrl := url, sourceRemark := pyOrStr (some rm) origin }

/-- RouteBuilder._sanitize_storehouse. -/
def sanitizeStorehouse (f : Filters) (entries : List RawEntry) (origin : String) :
    List RouteEntry :=
  let bk := f.blockedKeywords.map lowerStr
  let bp := f.blockedUrlKeywords.map lowerStr
  let bd := f.blockedDomains.map lowerStr
  entries.filterMap (sanitizeEntryStorehouse bk bp bd origin)

/-- One loop iteration of _sanitize_urls: short field names win, the name
falls back to the origin, entries with a blank URL or blocked are dropped. -/
def sanitizeEntryUrls (bk bp bd : List String) (origin : String) (e : RawEntry) :
    Option UrlEntry :=
  let nm := stripStr (pyOrStr e.name (pyOrStr e.sourceName origin))
  let url := stripStr (pyOrStr e.url (pyOrStr e.sourceUrl ""))
  if url = "" then none
  else if isBlocked nm url bk bp bd then none
  else some { name := nm, url := url }

/-- RouteBuilder._sanitize_urls. -/
def sanitizeUrls (f : Filters) (entries : List RawEntry) (origin : String) :
    List UrlEntry :=
  let bk := f.blockedKeywords.map lowerStr
  let bp := f.blockedUrlKeywords.map lowerStr
  let bd := f.blockedDomains.map lowerStr
  entries.filterMap (sanitizeEntryUrls bk bp bd origin)

/-! ### Payloads, pipeline configuration, registry records -/

/-- A pipeline payload as stored in the shared context: the canonical
storehouse shape, the URL-list shape used by the remote_urls default, or
the empty dictionary default for unknown kinds. -/
inductive Payload where
  | storehouse (entries : List RouteEntry)
  | urls (entries : List UrlEntry)
  | empty
deriving Repr, DecidableEq

/-- data.get("storeHouse", []): the storehouse list of a payload, empty for
the other shapes. -/
def payloadStorehouse : Payload → List RouteEntry
  | .storehouse es => es
  | _ => []

/-- In-place replacement of the storehouse list: a payload without a
storeHouse key is unchanged (the Python code mutates the fresh default
list, which is lost). -/
def setStorehouse : Payload → List RouteEntry → Payload
  | .storehouse _, es => .storehouse es
  | p, _ => p

/-- Python truthiness of a payload dictionary: the empty dict is falsy,
the storehouse and urls shapes are non-empty dicts and hence truthy
(used by the merge step's reference check). -/
def payloadTruthy : Payload → Bool
  | .empty => false
  | _ => true

/-- The expand configuration of a pipeline step. -/
structure ExpandCfg where
  level2Field : Option String
  level2OutputDir : Option String
  level2PublicTemplates : Option (List String)
deriving Repr, DecidableEq

/-- A declarative pipeline step (one element of the configured pipelines
list); optional fields model keys that may be absent in the YAML. -/
structure PipelineSpec where
  id : String
  kind : String
  sourceUrl : Option String
  sourcePath : Option String
  sourceField : Option String
  inputs : List String
  input : Option String
  expand : Option ExpandCfg
  output : Option String
  origin : Option String
  storeName : Option String
  storeRemark : Option String
deriving Repr, DecidableEq

/-- An artifact registry record (RouteBuilder._register_artifact). -/
structure Artifact where
  id : String
  path : String
  type : String
  metadata : List (String × Option String)
  templates : Option (List String)
deriving Repr, DecidableEq

/-- A per-step audit record (timing omitted: perf_counter is external;
the source echo of the configuration is kept to the fields the claims
mention). -/
structure PipelineRecord where
  id : String
  kind : String
  output : Option String
  inputs : List String
  error : Option String
deriving Repr, DecidableEq

/-- One mirror-list element of dist/meta/domestic_links.json. -/
structure DomesticItem where
  id : String
  type : String
  path : String
  mirrors : List String
  metadata : List (String × Option String)
deriving Repr, DecidableEq

/-- The content of a file written by _write_json, tagged by call site. -/
inductive FileContent where
  | payloadFile (p : Payload)
  | urlsFile (us : List UrlEntry)
  | summaryFile (records : List PipelineRecord) (cdnIndex : String)
  | domesticFile (items : List DomesticItem)
deriving Repr, DecidableEq

/-- One file written to disk during the run. -/
structure WriteEvent where
  path : String
  content : FileContent
deriving Repr, DecidableEq

/-- The run-level configuration together with the two templating
parameters of the RouteBuilder constructor. An absent or empty domestic
template list are both falsy in Python and modelled as the empty list. -/
structure Env where
  filters : Filters
  domesticTemplates : List String
  warehousePriority : Option String
  pipelines : List PipelineSpec
  publicRepo : String
  publicBranch : String
deriving Repr, DecidableEq

/-- A value found under a field of a local JSON file, restricted to the
shapes _run_local_storehouse distinguishes: a list of entry dictionaries,
a list of bare strings, or a nested dictionary. -/
inductive LocalField where
  | fRaws (es : List RawEntry)
  | fStrs (ss : List String)
  | fDict (fs : List (String × LocalField))
deriving Repr

/-- Dictionary lookup on a parsed local JSON object. -/
def lookupField : List (String × LocalField) → String → Option LocalField
  | [], _ => none
  | (k, v) :: rest, key => if k = key then some v else lookupField rest key

/-- Python truthiness of a local JSON value. -/
def fieldTruthy : LocalField → Bool
  | .fRaws es => !es.isEmpty
  | .fStrs ss => !ss.isEmpty
  | .fDict fs => !fs.isEmpty

/-- Python falsy-or on local JSON values. -/
def pyOrField (a : Option LocalField) (b : LocalField) : LocalField :=
  match a with
  | some v => if fieldTruthy v then v else b
  | none => b

/-- The external world: every network fetch and local file read the engine
performs. An error value stands for the exception the corresponding Python
call would raise (request error, bad status, JSON decode failure, missing
file, non-dictionary payload, or the typed non-list error of
_fetch_level2_urls). -/
structure Oracles where
  fetchStorehouse : Option String → Except String (List RawEntry)
  readLocal : Option String → Except String (List (String × LocalField))
  readLocalUrls : Option String → String → Except String (List RawEntry)
  fetchLevel2 : String → String → Except String (List RawEntry)

/-- The mutable state of one run: the shared context, the audit records,
the artifact registry and the files written so far, each in order. -/
structure RunState where
  context : List (String × Payload)
  records : List PipelineRecord
  artifacts : List Artifact
  writes : List WriteEvent
deriving Repr, DecidableEq

/-- context.get(id): dictionary semantics with later assignments
shadowing earlier ones (insertion prepends). -/
def lookupCtx (ctx : List (String × Payload)) (id : String) : Option Payload :=
  (ctx.find? (fun kv => kv.fst == id)).map (fun kv => kv.snd)

/-- The state at the start of a run. -/
def initialState : RunState := { context := [], records := [], artifacts := [], writes := [] }

/-! ### Public URL builder and artifact helpers -/

/-- RouteBuilder._build_public_urls: explicit templates win unless falsy,
then the domestic templates, then the hard-coded raw.githubusercontent
fallback; each template is formatted with repo, branch and path. -/
def buildPublicUrls (env : Env) (relPath : String) (templates : Option (List String)) :
    List String :=
  let fallback :=
    if env.domesticTemplates.isEmpty then
      ["https://raw.githubusercontent.com/{repo}/{branch}/{path}"]
    else env.domesticTemplates
  let tpl :=
    match templates with
    | some ts => if ts.isEmpty then fallback else ts
    | none => fallback
  tpl.map (formatTemplate env.publicRepo env.publicBranch relPath)

/-- The relative path of a nested storehouse file
(RouteBuilder._write_storehouse_urls). -/
def storehouseRelPath (ecfg : ExpandCfg) (storeSlug : String) : String :=
  (ecfg.level2OutputDir.getD "dist/routes/storehouses") ++ "/" ++ storeSlug ++ ".json"

/-- What a pipeline handler produces: the payload plus the write and
registration side effects it performed, in order. -/
structure DispatchOut where
  payload : Payload
  writes : List WriteEvent
  artifacts : List Artifact
deriving Repr, DecidableEq

/-! ### Pipeline handlers (RouteBuilder._run_*) -/

/-- RouteBuilder._run_remote_storehouse: fetch, take the storeHouse field
(the oracle models _fetch_json followed by raw.get("storeHouse", [])),
sanitize. -/
def runRemoteStorehouse (env : Env) (o : Oracles) (p : PipelineSpec) :
    Except String DispatchOut :=
  match o.fetchStorehouse p.sourceUrl with
  | .error e => .error e
  | .ok raws =>
      .ok { payload := .storehouse (sanitizeStorehouse env.filters raws (p.origin.getD p.id)),
            writes := [], artifacts := [] }

/-- The two-step field resolution of _run_local_storehouse:
payload.get(field, payload), then, when the result is still a dictionary,
entries.get("storeHouse") or entries.get(field) or []. -/
def resolveLocalEntries (fs : List (String × LocalField)) (field : String) : LocalField :=
  match (lookupField fs field).getD (.fDict fs) with
  | .fDict fs2 =>
      pyOrField (lookupField fs2 "storeHouse")
        (pyOrField (lookupField fs2 field) (.fRaws []))
  | x => x

/-- RouteBuilder._run_local_storehouse. The bare-string branch of the
source reads the variable named origin, which is bound nowhere in that
method, so Python raises NameError there; the embedding reproduces that
as an error. A value that is still a dictionary (or a dictionary whose
resolved field is) after field resolution makes the sanitize loop call
.get on a string key and is likewise an error. -/
def runLocalStorehouse (env : Env) (o : Oracles) (p : PipelineSpec) :
    Except String DispatchOut :=
  match o.readLocal p.sourcePath with
  | .error e => .error e
  | .ok fs =>
      match resolveLocalEntries fs (p.sourceField.getD "storeHouse") with
      | .fStrs [] =>
          .ok { payload := .storehouse (sanitizeStorehouse env.filters [] (p.origin.getD p.id)),
                writes := [], artifacts := [] }
      | .fStrs (_ :: _) => .error "NameError: name 'origin' is not defined"
      | .fRaws es =>
          .ok { payload := .storehouse (sanitizeStorehouse env.filters es (p.origin.getD p.id)),
                writes := [], artifacts := [] }
      | .fDict _ => .error "AttributeError: 'str' object has no attribute 'get'"

/-- RouteBuilder._run_local_urls_storehouse: read and sanitize the URL
list, require an expand configuration, write the nested storehouse file,
register it, and return one synthetic entry pointing at the first public
URL. -/
def runLocalUrlsStorehouse (env : Env) (o : Oracles) (p : PipelineSpec) :
    Except String DispatchOut :=
  match o.readLocalUrls p.sourcePath (p.sourceField.getD "urls") with
  | .error e => .error e
  | .ok entries =>
      let cleanUrls := sanitizeUrls env.filters entries (p.storeName.getD p.id)
      match p.expand with
      | none => .error "local_urls_storehouse 需要 expand 配置"
      | some ecfg =>
          let storeName := p.storeName.getD "本地多仓"
          let storeRemark := p.storeRemark.getD (p.origin.getD p.id)
          let storeSlug := slugify storeName
          let relPath := storehouseRelPath ecfg storeSlug
          let publics := buildPublicUrls env relPath ecfg.level2PublicTemplates
          let entry : RouteEntry :=
            { sourceName := storeName, sourceUrl := publics.headD "",
              sourceRemark := storeRemark }
          .ok { payload := .storehouse [entry],
                writes := [{ path := relPath, content := .urlsFile cleanUrls }],
                artifacts := [{ id := p.id ++ "::" ++ storeSlug, path := relPath,
                                type := "storehouse",
                                metadata := [("origin", p.origin), ("store", some storeName)],
                                templates := ecfg.level2PublicTemplates }] }

/-- Collect the referenced inputs of a merge step; a missing or falsy
context payload raises. -/
def collectInputs (ctx : List (String × Payload)) : List String →
    Except String (List RouteEntry)
  | [] => .ok []
  | ref :: rest =>
      match lookupCtx ctx ref with
      | none => .error ("依赖 pipeline " ++ ref ++ " 未生成数据")
      | some data =>
          if payloadTruthy data then
            match collectInputs ctx rest with
            | .error e => .error e
            | .ok tail => .ok (payloadStorehouse data ++ tail)
          else .error ("依赖 pipeline " ++ ref ++ " 未生成数据")

/-- The dedup loop of _run_merge_storehouse: keep the first entry for
each non-empty sourceUrl, skipping entries whose sourceUrl is falsy or
already seen. -/
def dedupByUrl (seen : List String) : List RouteEntry → List RouteEntry
  | [] => []
  | e :: rest =>
      if e.sourceUrl = "" ∨ e.sourceUrl ∈ seen then dedupByUrl seen rest
      else e :: dedupByUrl (e.sourceUrl :: seen) rest

/-- RouteBuilder._run_merge_storehouse. -/
def runMergeStorehouse (ctx : List (String × Payload)) (p : PipelineSpec) :
    Except String DispatchOut :=
  match collectInputs ctx p.inputs with
  | .error e => .error e
  | .ok merged =>
      .ok { payload := .storehouse (dedupByUrl [] merged), writes := [], artifacts := [] }

/-- RouteBuilder._run_copy_route: deep-copy the referenced payload; only a
missing reference (None) raises here. -/
def runCopyRoute (ctx : List (String × Payload)) (p : PipelineSpec) :
    Except String DispatchOut :=
  match p.input.bind (lookupCtx ctx) with
  | none => .error ("copy_route 无法找到输入 " ++ p.input.getD "None")
  | some data => .ok { payload := data, writes := [], artifacts := [] }

/-- RouteBuilder._dispatch_pipeline: route by kind; an unknown kind
raises. -/
def dispatchPipeline (env : Env) (o : Oracles) (ctx : List (String × Payload))
    (p : PipelineSpec) : Except String DispatchOut :=
  if p.kind = "remote_storehouse" then runRemoteStorehouse env o p
  else if p.kind = "local_storehouse" then runLocalStorehouse env o p
  else if p.kind = "local_urls_storehouse" then runLocalUrlsStorehouse env o p
  else if p.kind = "merge_storehouse" then runMergeStorehouse ctx p
  else if p.kind = "copy_route" then runCopyRoute ctx p
  else .error ("未实现的 pipeline kind: " ++ p.kind)

/-- RouteBuilder._default_payload_for_kind. -/
def defaultPayloadForKind (kind : String) : Payload :=
  if kind = "remote_storehouse" ∨ kind = "local_storehouse" ∨
      kind = "local_urls_storehouse" ∨ kind = "merge_storehouse" ∨
      kind = "copy_route" then .storehouse []
  else if kind = "remote_urls" then .urls []
  else .empty

/-! ### Expansion engine (RouteBuilder._expand_storehouse_routes) -/

/-- One iteration of the expansion loop: an entry with a falsy sourceUrl
is skipped; a failed level-2 fetch (request error or non-list response)
is caught and the entry passes through untouched; otherwise the fetched
list is sanitized, written as a nested artifact, registered, and the
entry is rewritten to the first public URL (setdefault on sourceRemark is
a no-op here because sanitized entries always carry the key). -/
def expandEntry (env : Env) (o : Oracles) (ecfg : ExpandCfg) (pipelineId origin : String)
    (e : RouteEntry) : RouteEntry × List WriteEvent × List Artifact :=
  if e.sourceUrl = "" then (e, [], [])
  else
    match o.fetchLevel2 e.sourceUrl (ecfg.level2Field.getD "urls") with
    | .error _ => (e, [], [])
    | .ok rawUrls =>
        let storeName := if e.sourceName = "" then origin else e.sourceName
        let storeSlug := slugify storeName
        let cleanUrls := sanitizeUrls env.filters rawUrls storeName
        let relPath := storehouseRelPath ecfg storeSlug
        let publics := buildPublicUrls env relPath ecfg.level2PublicTemplates
        ({ e with sourceUrl := publics.headD "" },
         [{ path := relPath, content := .urlsFile cleanUrls }],
         [{ id := pipelineId ++ "::" ++ storeSlug, path := relPath, type := "storehouse",
            metadata := [("original_level2", some e.sourceUrl), ("store", some storeName)],
            templates := ecfg.level2PublicTemplates }])

/-- The expansion loop over all entries of one pipeline, accumulating the
rewritten entries and the side effects in entry order. -/
def expandStorehouseRoutes (env : Env) (o : Oracles) (ecfg : ExpandCfg)
    (pipelineId origin : String) :
    List RouteEntry → List RouteEntry × List WriteEvent × List Artifact
  | [] => ([], [], [])
  | e :: rest =>
      let r := expandEntry env o ecfg pipelineId origin e
      let rs := expandStorehouseRoutes env o ecfg pipelineId origin rest
      (r.1 :: rs.1, r.2.1 ++ rs.2.1, r.2.2 ++ rs.2.2)

/-- entries.insert(0, entries.pop()): move the last entry to the front
(only ever applied to a non-empty list). -/
def priorityReorder (l : List RouteEntry) : List RouteEntry :=
  match l.getLast? with
  | some x => x :: l.dropLast
  | none => l

/-! ### The run loop (RouteBuilder.run) -/

/-- The payload a step stores before expansion: the dispatch result, or
the kind default when the handler raised. -/
def stepDataRaw (env : Env) (o : Oracles) (ctx : List (String × Payload))
    (p : PipelineSpec) : Payload :=
  match dispatchPipeline env o ctx p with
  | .ok out => out.payload
  | .error _ => defaultPayloadForKind p.kind

/-- The error message recorded for a step, when the handler raised. -/
def stepError (env : Env) (o : Oracles) (ctx : List (String × Payload))
    (p : PipelineSpec) : Option String :=
  match dispatchPipeline env o ctx p with
  | .ok _ => none
  | .error msg => some msg

/-- The write and registration side effects of the handler itself
(only local_urls_storehouse has any, and only on success). -/
def stepDispatchEffects (env : Env) (o : Oracles) (ctx : List (String × Payload))
    (p : PipelineSpec) : List WriteEvent × List Artifact :=
  match dispatchPipeline env o ctx p with
  | .ok out => (out.writes, out.artifacts)
  | .error _ => ([], [])

/-- The expansion block of the run loop (lines 61-71 of the source): when
the step declares expand and is not self-expanding, expand the storehouse
entries in place and then, if this step is the prioritized one and the
list is non-empty, move its last entry to the front. -/
def expandPhase (env : Env) (o : Oracles) (p : PipelineSpec) (data : Payload) :
    Payload × List WriteEvent × List Artifact :=
  match p.expand with
  | some ecfg =>
      if p.kind = "local_urls_storehouse" then (data, [], [])
      else
        let entries := payloadStorehouse data
        let r := expandStorehouseRoutes env o ecfg p.id (p.origin.getD p.id) entries
        let entries2 :=
          if env.warehousePriority = some p.id ∧ r.1 ≠ [] then priorityReorder r.1 else r.1
        (setStorehouse data entries2, r.2.1, r.2.2)
  | none => (data, [], [])

/-- The output block of the run loop: write the payload to the declared
output path and register it as a pipeline artifact. -/
def outputPhase (p : PipelineSpec) (data : Payload) : List WriteEvent × List Artifact :=
  match p.output with
  | some rel =>
      ([{ path := rel, content := .payloadFile data }],
       [{ id := p.id, path := rel, type := "pipeline", metadata := [], templates := none }])
  | none => ([], [])

/-- One iteration of the run loop over one pipeline step: dispatch with
the per-step exception handler, store into the context, expand, reorder,
write the output, and append the audit record. -/
def runStep (env : Env) (o : Oracles) (st : RunState) (p : PipelineSpec) : RunState :=
  let data := stepDataRaw env o st.context p
  let eff0 := stepDispatchEffects env o st.context p
  let ex := expandPhase env o p data
  let out := outputPhase p ex.1
  let record : PipelineRecord :=
    { id := p.id, kind := p.kind, output := p.output, inputs := p.inputs,
      error := stepError env o st.context p }
  { context := (p.id, ex.1) :: st.context,
    records := st.records ++ [record],
    artifacts := st.artifacts ++ eff0.2 ++ ex.2.2 ++ out.2,
    writes := st.writes ++ eff0.1 ++ ex.2.1 ++ out.1 }

/-- The write event of RouteBuilder._write_summary: the audit records
plus the CDN-style index URL, at the fixed summary path. -/
def summaryWrite (env : Env) (st : RunState) : WriteEvent :=
  { path := "dist/meta/routes_summary.json",
    content := .summaryFile st.records
      ((buildPublicUrls env "dist/routes/multi/index.json"
        (some ["https://cdn.jsdelivr.net/gh/{repo}@{branch}/{path}"])).headD "") }

/-- RouteBuilder._write_summary. -/
def writeSummary (env : Env) (st : RunState) : RunState :=
  { st with writes := st.writes ++ [summaryWrite env st] }

/-- The write event of RouteBuilder._write_domestic_links: one mirror
item per registered artifact, at the fixed domestic-links path. -/
def domesticWrite (env : Env) (st : RunState) : WriteEvent :=
  { path := "dist/meta/domestic_links.json",
    content := .domesticFile (st.artifacts.map (fun a =>
      { id := a.id, type := a.type, path := a.path,
        mirrors := (if env.domesticTemplates.isEmpty then
            ["https://raw.githubusercontent.com/{repo}/{branch}/{path}"]
          else env.domesticTemplates).map
            (formatTemplate env.publicRepo env.publicBranch a.path),
        metadata := a.metadata : DomesticItem })) }

/-- RouteBuilder._write_domestic_links. -/
def writeDomesticLinks (env : Env) (st : RunState) : RunState :=
  { st with writes := st.writes ++ [domesticWrite env st] }

/-- RouteBuilder.run: fatal when no pipelines are configured, otherwise
every step runs under the per-step exception handler and the two summary
documents are written at the end. -/
def run (env : Env) (o : Oracles) : Except String RunState :=
  if env.pipelines.isEmpty then .error "config/routes.yaml 未配置 pipelines"
  else
    let st := env.pipelines.foldl (runStep env o) initialState
    .ok (writeDomesticLinks env (writeSummary env st))

/-- Whether a run aborts with a fatal error. -/
def runAborts (env : Env) (o : Oracles) : Bool :=
  match run env o with
  | .error _ => true
  | .ok _ => false

/-- The context payload a finished run holds for a pipeline id. -/
def runContext (env : Env) (o : Oracles) (id : String) : Option Payload :=
  match run env o with
  | .ok st => lookupCtx st.context id
  | .error _ => none

/-- The paths of all files a finished run wrote, in order. -/
def runWritePaths (env : Env) (o : Oracles) : List String :=
  match run env o with
  | .ok st => st.writes.map (fun w => w.path)
  | .error _ => []

/-- The ids of all artifacts a finished run registered, in order. -/
def runArtifactIds (env : Env) (o : Oracles) : List String :=
  match run env o with
  | .ok st => st.artifacts.map (fun a => a.id)
  | .error _ => []

/-- The paths of all artifacts a finished run registered, in order. -/
def runArtifactPaths (env : Env) (o : Oracles) : List String :=
  match run env o with
  | .ok st => st.artifacts.map (fun a => a.path)
  | .error _ => []

/-! ### The retried fetch (RouteBuilder._fetch_json)

The loop body is modelled generically over the per-attempt behavior of
requests.get + raise_for_status + json (the fetch argument, indexed by the
1-based attempt number). The result records the value returned or the
exception finally re-raised, the number of attempts performed, and the
backoff sleeps executed between attempts, in order. A none result models
the loop running zero times (attempts below one), where the Python
function falls through and returns None. -/

/-- The retry loop of _fetch_json, from a given 1-based attempt number
with a given number of remaining attempts. -/
def fetchJsonAux (fetch : Nat → Except String Nat) (attempt : Nat) :
    Nat → Option (Except String Nat) × Nat × List Nat
  | 0 => (none, 0, [])
  | remaining + 1 =>
      match fetch attempt with
      | .ok v => (some (.ok v), 1, [])
      | .error e =>
          if remaining = 0 then (some (.error e), 1, [])
          else
            let r := fetchJsonAux fetch (attempt + 1) remaining
            (r.1, r.2.1 + 1, min (2 ^ attempt) 5 :: r.2.2)

/-- RouteBuilder._fetch_json with a configured retry count: attempts are
numbered 1 through retries. -/
def fetchJson (fetch : Nat → Except String Nat) (retries : Nat) :
    Option (Except String Nat) × Nat × List Nat :=
  fetchJsonAux fetch 1 retries

/-- The error messages appended to the audit records of a finished run. -/
def runRecordErrors (env : Env) (o : Oracles) : List (Option String) :=
  match run env o with
  | .ok st => st.records.map (fun r => r.error)
  | .error _ => []

/-! ### Concrete fixtures used by witnesses and counterexamples -/

/-- Empty blocklists. -/
def noFilters : Filters := { blockedKeywords := [], blockedUrlKeywords := [], blockedDomains := [] }

/-- A raw entry with only the canonical name and URL set. -/
def mkRaw (nm u : String) : RawEntry :=
  { sourceName := some nm, name := none, sourceUrl := some u, url := none,
    sourceRemark := none, remark := none }

/-- A pipeline spec with only an id and kind (all optional keys absent). -/
def mkSpec (id kind : String) : PipelineSpec :=
  { id := id, kind := kind, sourceUrl := none, sourcePath := none, sourceField := none,
    inputs := [], input := none, expand := none, output := none, origin := none,
    storeName := none, storeRemark := none }

/-- Oracles where every external interaction fails. -/
def oStub : Oracles :=
  { fetchStorehouse := fun _ => .error "network down",
    readLocal := fun _ => .error "file missing",
    readLocalUrls := fun _ _ => .error "file missing",
    fetchLevel2 := fun _ _ => .error "network down" }

end FetchMulti

namespace FetchMulti

/-! ### Lemmas about the merge dedup loop -/

/-- The concatenation of the storehouse payloads of the referenced
inputs, in declared order (what the extend loop of _run_merge_storehouse
accumulates when every reference resolves). -/
def mergedEntries (ctx : List (String × Payload)) : List String → List RouteEntry
  | [] => []
  | ref :: rest => payloadStorehouse ((lookupCtx ctx ref).getD .empty) ++ mergedEntries ctx rest

theorem collectInputs_eq (ctx : List (String × Payload)) (refs : List String)
    (h : ∀ ref ∈ refs, ∃ d, lookupCtx ctx ref = some d ∧ payloadTruthy d = true) :
    collectInputs ctx refs = .ok (mergedEntries ctx refs) := by
  induction refs with
  | nil => rfl
  | cons ref rest ih =>
      obtain ⟨d, hd, htr⟩ := h ref (List.mem_cons_self _ _)
      have hrest := ih (fun r hr => h r (List.mem_cons_of_mem _ hr))
      simp only [collectInputs, mergedEntries, hd, htr, if_pos, hrest, Option.getD_some]

theorem dedupByUrl_sublist (seen : List String) (l : List RouteEntry) :
    (dedupByUrl seen l).Sublist l := by
  induction l generalizing seen with
  | nil => simp [dedupByUrl]
  | cons e rest ih =>
      simp only [dedupByUrl]
      split
      · exact (ih seen).cons e
      · exact (ih _).cons₂ e

theorem mem_dedupByUrl_not_seen {seen : List String} {l : List RouteEntry} {e : RouteEntry}
    (h : e ∈ dedupByUrl seen l) : e.sourceUrl ∉ seen := by
  induction l generalizing seen with
  | nil => simp [dedupByUrl] at h
  | cons f rest ih =>
      simp only [dedupByUrl] at h
      split at h
      · exact ih h
      · rename_i hcond
        rcases List.mem_cons.mp h with he | he
        · subst he
          exact fun hs => hcond (Or.inr hs)
        · exact fun hs => ih he (List.mem_cons_of_mem _ hs)

theorem mem_dedupByUrl_ne_empty {seen : List String} {l : List RouteEntry} {e : RouteEntry}
    (h : e ∈ dedupByUrl seen l) : e.sourceUrl ≠ "" := by
  induction l generalizing seen with
  | nil => simp [dedupByUrl] at h
  | cons f rest ih =>
      simp only [dedupByUrl] at h
      split at h
      · exact ih h
      · rename_i hcond
        rcases List.mem_cons.mp h with he | he
        · subst he
          exact fun h0 => hcond (Or.inl h0)
        · exact ih he

theorem dedupByUrl_pairwise (seen : List String) (l : List RouteEntry) :
    (dedupByUrl seen l).Pairwise (fun a b => a.sourceUrl ≠ b.sourceUrl) := by
  induction l generalizing seen with
  | nil => simp [dedupByUrl]
  | cons f rest ih =>
      simp only [dedupByUrl]
      split
      · exact ih seen
      · refine List.Pairwise.cons (fun b hb heq => ?_) (ih _)
        exact mem_dedupByUrl_not_seen hb (heq ▸ List.mem_cons_self _ _)

theorem dedupByUrl_complete {seen : List String} {l : List RouteEntry} {e : RouteEntry}
    (hmem : e ∈ l) (hne : e.sourceUrl ≠ "") (hseen : e.sourceUrl ∉ seen) :
    ∃ e2 ∈ dedupByUrl seen l, e2.sourceUrl = e.sourceUrl := by
  induction l generalizing seen with
  | nil => cases hmem
  | cons f rest ih =>
      simp only [dedupByUrl]
      split
      · rename_i hcond
        rcases List.mem_cons.mp hmem with he | he
        · subst he
          rcases hcond with h0 | hs
          · exact absurd h0 hne
          · exact absurd hs hseen
        · exact ih he hseen
      · rcases List.mem_cons.mp hmem with he | he
        · exact ⟨f, List.mem_cons_self _ _, by rw [he]⟩
        · by_cases huf : e.sourceUrl = f.sourceUrl
          · exact ⟨f, List.mem_cons_self _ _, huf.symm⟩
          · obtain ⟨e2, h2, hu⟩ := ih he (by
              intro hs
              rcases List.mem_cons.mp hs with h | h
              · exact huf h
              · exact hseen h)
            exact ⟨e2, List.mem_cons_of_mem _ h2, hu⟩

theorem dedupByUrl_first {seen : List String} {l : List RouteEntry} {e : RouteEntry}
    (h : e ∈ dedupByUrl seen l) :
    l.find? (fun x => x.sourceUrl == e.sourceUrl) = some e := by
  induction l generalizing seen with
  | nil => simp [dedupByUrl] at h
  | cons f rest ih =>
      simp only [dedupByUrl] at h
      split at h
      · rename_i hcond
        have hnot := mem_dedupByUrl_not_seen h
        have hne := mem_dedupByUrl_ne_empty h
        have hbeq : (f.sourceUrl == e.sourceUrl) = false := by
          refine beq_eq_false_iff_ne.mpr (fun heq => ?_)
          rcases hcond with h0 | hs
          · exact hne (heq ▸ h0)
          · exact hnot (heq ▸ hs)
        rw [List.find?_cons_of_neg _ (by simp [hbeq]), ih h]
      · rcases List.mem_cons.mp h with he | he
        · subst he
          exact List.find?_cons_of_pos _ (by simp)
        · have hnot := mem_dedupByUrl_not_seen he
          have hbeq : (f.sourceUrl == e.sourceUrl) = false := by
            refine beq_eq_false_iff_ne.mpr (fun heq => ?_)
            exact hnot (heq ▸ List.mem_cons_self _ _)
          rw [List.find?_cons_of_neg _ (by simp [hbeq]), ih he]

end FetchMulti

namespace FetchMulti

/-! ### Merge fixtures -/

/-- A context holding two resolved storehouse payloads with one duplicate
URL and one empty URL across them. -/
def ctxMergeW : List (String × Payload) :=
  [("a", .storehouse [⟨"A", "u1", "r"⟩, ⟨"B", "", "r"⟩]),
   ("b", .storehouse [⟨"C", "u1", "r"⟩, ⟨"D", "u2", "r"⟩])]

/-- A merge step referencing both payloads of ctxMergeW. -/
def mergeSpecW : PipelineSpec := { mkSpec "m" "merge_storehouse" with inputs := ["a", "b"] }

/-- C3: for a merge_storehouse step whose referenced input ids all resolve to
payloads in the context, the step succeeds; its storeHouse output is the
dedup of the concatenation of the inputs' storeHouse lists in declared
order, it is a subsequence of that concatenation (value copies of source
entries, in order), no two output entries share a sourceUrl, each output
entry is the first occurrence of its sourceUrl in the concatenation
(first-seen order), and every non-empty sourceUrl occurring in the
concatenation survives. -/
theorem C3_merge_dedup_first_seen (ctx : List (String × Payload)) (p : PipelineSpec)
    (h : ∀ ref ∈ p.inputs, ∃ d, lookupCtx ctx ref = some d ∧ payloadTruthy d = true) :
    runMergeStorehouse ctx p =
        .ok { payload := .storehouse (dedupByUrl [] (mergedEntries ctx p.inputs)),
              writes := [], artifacts := [] }
      ∧ (dedupByUrl [] (mergedEntries ctx p.inputs)).Sublist (mergedEntries ctx p.inputs)
      ∧ (dedupByUrl [] (mergedEntries ctx p.inputs)).Pairwise
          (fun a b => a.sourceUrl ≠ b.sourceUrl)
      ∧ (∀ e ∈ dedupByUrl [] (mergedEntries ctx p.inputs),
          (mergedEntries ctx p.inputs).find? (fun x => x.sourceUrl == e.sourceUrl) = some e)
      ∧ (∀ e ∈ mergedEntries ctx p.inputs, e.sourceUrl ≠ "" →
          ∃ e2 ∈ dedupByUrl [] (mergedEntries ctx p.inputs),
            e2.sourceUrl = e.sourceUrl) := by
  refine ⟨?_, dedupByUrl_sublist _ _, dedupByUrl_pairwise _ _,
    fun e he => dedupByUrl_first he,
    fun e he hne => dedupByUrl_complete he hne (by simp)⟩
  unfold runMergeStorehouse
  rw [collectInputs_eq ctx p.inputs h]

theorem C3_witness :
    runMergeStorehouse ctxMergeW mergeSpecW =
        .ok { payload := .storehouse (dedupByUrl [] (mergedEntries ctxMergeW mergeSpecW.inputs)),
              writes := [], artifacts := [] }
      ∧ (dedupByUrl [] (mergedEntries ctxMergeW mergeSpecW.inputs)).Sublist
          (mergedEntries ctxMergeW mergeSpecW.inputs)
      ∧ (dedupByUrl [] (mergedEntries ctxMergeW mergeSpecW.inputs)).Pairwise
          (fun a b => a.sourceUrl ≠ b.sourceUrl)
      ∧ (∀ e ∈ dedupByUrl [] (mergedEntries ctxMergeW mergeSpecW.inputs),
          (mergedEntries ctxMergeW mergeSpecW.inputs).find?
            (fun x => x.sourceUrl == e.sourceUrl) = some e)
      ∧ (∀ e ∈ mergedEntries ctxMergeW mergeSpecW.inputs, e.sourceUrl ≠ "" →
          ∃ e2 ∈ dedupByUrl [] (mergedEntries ctxMergeW mergeSpecW.inputs),
            e2.sourceUrl = e.sourceUrl) :=
  C3_merge_dedup_first_seen ctxMergeW mergeSpecW (by
    intro ref href
    have hab : ref = "a" ∨ ref = "b" := by simpa [mergeSpecW, mkSpec] using href
    rcases hab with rfl | rfl
    · exact ⟨Payload.storehouse [⟨"A", "u1", "r"⟩, ⟨"B", "", "r"⟩], by decide, by decide⟩
    · exact ⟨Payload.storehouse [⟨"C", "u1", "r"⟩, ⟨"D", "u2", "r"⟩], by decide, by decide⟩)

/-- C10: in merge_storehouse, entries whose sourceUrl is missing or empty
are dropped entirely from the merged output: the output is a subsequence
of the concatenated inputs in which every entry has a non-empty
sourceUrl. -/
theorem C10_merge_drops_empty_urls (ctx : List (String × Payload)) (p : PipelineSpec)
    (h : ∀ ref ∈ p.inputs, ∃ d, lookupCtx ctx ref = some d ∧ payloadTruthy d = true) :
    runMergeStorehouse ctx p =
        .ok { payload := .storehouse (dedupByUrl [] (mergedEntries ctx p.inputs)),
              writes := [], artifacts := [] }
      ∧ (∀ e ∈ dedupByUrl [] (mergedEntries ctx p.inputs), e.sourceUrl ≠ "")
      ∧ (dedupByUrl [] (mergedEntries ctx p.inputs)).Sublist
          (mergedEntries ctx p.inputs) := by
  refine ⟨?_, fun e he => mem_dedupByUrl_ne_empty he, dedupByUrl_sublist _ _⟩
  unfold runMergeStorehouse
  rw [collectInputs_eq ctx p.inputs h]

theorem C10_witness :
    runMergeStorehouse ctxMergeW mergeSpecW =
        .ok { payload := .storehouse (dedupByUrl [] (mergedEntries ctxMergeW mergeSpecW.inputs)),
              writes := [], artifacts := [] }
      ∧ (∀ e ∈ dedupByUrl [] (mergedEntries ctxMergeW mergeSpecW.inputs), e.sourceUrl ≠ "")
      ∧ (dedupByUrl [] (mergedEntries ctxMergeW mergeSpecW.inputs)).Sublist
          (mergedEntries ctxMergeW mergeSpecW.inputs) :=
  C10_merge_drops_empty_urls ctxMergeW mergeSpecW (by
    intro ref href
    have hab : ref = "a" ∨ ref = "b" := by simpa [mergeSpecW, mkSpec] using href
    rcases hab with rfl | rfl
    · exact ⟨Payload.storehouse [⟨"A", "u1", "r"⟩, ⟨"B", "", "r"⟩], by decide, by decide⟩
    · exact ⟨Payload.storehouse [⟨"C", "u1", "r"⟩, ⟨"D", "u2", "r"⟩], by decide, by decide⟩)

end FetchMulti

namespace FetchMulti

/-! ### Lemmas about the blocklist filter -/

theorem not_blocked_elim {nm url : String} {bk bp bd : List String}
    (h : isBlocked nm url bk bp bd = false) :
    (∀ k ∈ bk, strContains (lowerStr nm) k = false)
    ∧ (∀ k ∈ bp, strContains (lowerStr url) k = false)
    ∧ (∀ b ∈ bd, strEndsWith (lowerStr (netloc url)) b = false) := by
  simp only [isBlocked] at h
  split at h
  · cases h
  · split at h
    · cases h
    · rename_i hno1 hno2
      have hbk : ∀ k ∈ bk, strContains (lowerStr nm) k = false := by
        have hb : bk.any (fun k => strContains (lowerStr nm) k) = false := by
          simpa using hno1
        intro k hk
        simpa using List.any_eq_false.mp hb k hk
      have hbp : ∀ k ∈ bp, strContains (lowerStr url) k = false := by
        have hb : bp.any (fun k => strContains (lowerStr url) k) = false := by
          simpa using hno2
        intro k hk
        simpa using List.any_eq_false.mp hb k hk
      refine ⟨hbk, hbp, ?_⟩
      split at h
      · intro b hb2
        simpa using List.any_eq_false.mp h b hb2
      · rename_i hemp
        intro b hb2
        cases bd with
        | nil => cases hb2
        | cons x xs => exact absurd rfl hemp

theorem mem_sanitizeStorehouse_not_blocked {f : Filters} {entries : List RawEntry}
    {origin : String} {e : RouteEntry} (h : e ∈ sanitizeStorehouse f entries origin) :
    isBlocked e.sourceName e.sourceUrl (f.blockedKeywords.map lowerStr)
      (f.blockedUrlKeywords.map lowerStr) (f.blockedDomains.map lowerStr) = false := by
  simp only [sanitizeStorehouse] at h
  obtain ⟨raw, _, h2⟩ := List.mem_filterMap.mp h
  simp only [sanitizeEntryStorehouse] at h2
  split at h2
  · cases h2
  · split at h2
    · cases h2
    · rename_i hnb
      cases h2
      simpa using hnb

theorem mem_sanitizeUrls_not_blocked {f : Filters} {entries : List RawEntry}
    {origin : String} {u : UrlEntry} (h : u ∈ sanitizeUrls f entries origin) :
    isBlocked u.name u.url (f.blockedKeywords.map lowerStr)
      (f.blockedUrlKeywords.map lowerStr) (f.blockedDomains.map lowerStr) = false := by
  simp only [sanitizeUrls] at h
  obtain ⟨raw, _, h2⟩ := List.mem_filterMap.mp h
  simp only [sanitizeEntryUrls] at h2
  split at h2
  · cases h2
  · split at h2
    · cases h2
    · rename_i hnb
      cases h2
      simpa using hnb

/-- Blocklists used by sanitizer witnesses: one blocked name keyword, one
blocked URL substring, one blocked domain suffix. -/
def filtersW : Filters :=
  { blockedKeywords := ["bad"], blockedUrlKeywords := ["evil"], blockedDomains := ["x.com"] }

/-- An entry none of the blocklists of filtersW match. -/
def rawGood : RawEntry := mkRaw "Good" "http://ok.org/a"

/-- C7: sanitization (both the storehouse and the URL-entry sanitizer)
never emits an entry whose lower-cased name contains a blocked keyword,
whose lower-cased URL contains a blocked URL substring, or whose URL host
case-insensitively ends with a blocked domain suffix; the three checks
are independent, so each one is refuted separately for every emitted
entry. -/
theorem C7_sanitize_never_blocked (f : Filters) (entries : List RawEntry) (origin : String) :
    (∀ e ∈ sanitizeStorehouse f entries origin,
        (∀ kw ∈ f.blockedKeywords, strContains (lowerStr e.sourceName) (lowerStr kw) = false)
      ∧ (∀ pat ∈ f.blockedUrlKeywords, strContains (lowerStr e.sourceUrl) (lowerStr pat) = false)
      ∧ (∀ d ∈ f.blockedDomains,
          strEndsWith (lowerStr (netloc e.sourceUrl)) (lowerStr d) = false))
    ∧ (∀ u ∈ sanitizeUrls f entries origin,
        (∀ kw ∈ f.blockedKeywords, strContains (lowerStr u.name) (lowerStr kw) = false)
      ∧ (∀ pat ∈ f.blockedUrlKeywords, strContains (lowerStr u.url) (lowerStr pat) = false)
      ∧ (∀ d ∈ f.blockedDomains,
          strEndsWith (lowerStr (netloc u.url)) (lowerStr d) = false)) := by
  constructor
  · intro e he
    obtain ⟨h1, h2, h3⟩ := not_blocked_elim (mem_sanitizeStorehouse_not_blocked he)
    exact ⟨fun kw hkw => h1 _ (List.mem_map_of_mem _ hkw),
           fun pat hp => h2 _ (List.mem_map_of_mem _ hp),
           fun d hd => h3 _ (List.mem_map_of_mem _ hd)⟩
  · intro u hu
    obtain ⟨h1, h2, h3⟩ := not_blocked_elim (mem_sanitizeUrls_not_blocked hu)
    exact ⟨fun kw hkw => h1 _ (List.mem_map_of_mem _ hkw),
           fun pat hp => h2 _ (List.mem_map_of_mem _ hp),
           fun d hd => h3 _ (List.mem_map_of_mem _ hd)⟩

theorem C7_witness :
    strContains (lowerStr "Good") (lowerStr "bad") = false
    ∧ strContains (lowerStr "http://ok.org/a") (lowerStr "evil") = false
    ∧ strEndsWith (lowerStr (netloc "http://ok.org/a")) (lowerStr "x.com") = false :=
  ⟨((C7_sanitize_never_blocked filtersW [rawGood] "o").1
      ⟨"Good", "http://ok.org/a", "o"⟩ (by decide)).1 "bad" (by decide),
   ((C7_sanitize_never_blocked filtersW [rawGood] "o").1
      ⟨"Good", "http://ok.org/a", "o"⟩ (by decide)).2.1 "evil" (by decide),
   ((C7_sanitize_never_blocked filtersW [rawGood] "o").1
      ⟨"Good", "http://ok.org/a", "o"⟩ (by decide)).2.2 "x.com" (by decide)⟩

end FetchMulti

namespace FetchMulti

/-! ### Lemmas about the retried fetch -/

theorem fetchJsonAux_ok {fetch : Nat → Except String Nat} {a r : Nat} {v : Nat}
    (h : fetch a = .ok v) :
    fetchJsonAux fetch a (r + 1) = (some (.ok v), 1, []) := by
  simp [fetchJsonAux, h]

theorem fetchJsonAux_error_last {fetch : Nat → Except String Nat} {a : Nat} {e : String}
    (h : fetch a = .error e) :
    fetchJsonAux fetch a 1 = (some (.error e), 1, []) := by
  simp [fetchJsonAux, h]

theorem fetchJsonAux_error_step {fetch : Nat → Except String Nat} {a r : Nat} {e : String}
    (h : fetch a = .error e) (hr : ¬ r = 0) :
    fetchJsonAux fetch a (r + 1) =
      ((fetchJsonAux fetch (a + 1) r).1, (fetchJsonAux fetch (a + 1) r).2.1 + 1,
        min (2 ^ a) 5 :: (fetchJsonAux fetch (a + 1) r).2.2) := by
  simp [fetchJsonAux, h, hr]

theorem fetchJsonAux_all_fail (fetch : Nat → Except String Nat) (err : Nat → String) :
    ∀ k a, (∀ i, a ≤ i → i ≤ a + k → fetch i = .error (err i)) →
    fetchJsonAux fetch a (k + 1) =
      (some (.error (err (a + k))), k + 1,
        (List.range' a k).map (fun i => min (2 ^ i) 5)) := by
  intro k
  induction k with
  | zero =>
      intro a hf
      have ha := hf a (Nat.le_refl a) (Nat.le_refl a)
      simp [fetchJsonAux_error_last ha]
  | succ k ih =>
      intro a hf
      have ha := hf a (Nat.le_refl a) (Nat.le_add_right a (k + 1))
      have hrec := ih (a + 1) (fun i h1 h2 => hf i (by omega) (by omega))
      have hidx : a + 1 + k = a + (k + 1) := by omega
      rw [hidx] at hrec
      rw [fetchJsonAux_error_step ha (Nat.succ_ne_zero k), hrec]
      simp [List.range'_succ]

theorem fetchJsonAux_fail_then_ok (fetch : Nat → Except String Nat) (v : Nat) :
    ∀ k a rem, (∀ i, a ≤ i → i < a + k → ∃ e, fetch i = .error e) →
      fetch (a + k) = .ok v → k < rem →
      fetchJsonAux fetch a rem =
        (some (.ok v), k + 1, (List.range' a k).map (fun i => min (2 ^ i) 5)) := by
  intro k
  induction k with
  | zero =>
      intro a rem hfail hok hlt
      obtain ⟨m, rfl⟩ : ∃ m, rem = m + 1 := ⟨rem - 1, by omega⟩
      simp only [Nat.add_zero] at hok
      simp [fetchJsonAux_ok hok]
  | succ k ih =>
      intro a rem hfail hok hlt
      obtain ⟨m, rfl⟩ : ∃ m, rem = m + 1 := ⟨rem - 1, by omega⟩
      obtain ⟨e, he⟩ := hfail a (Nat.le_refl a) (by omega)
      have hm : ¬ m = 0 := by omega
      have hidx : a + 1 + k = a + (k + 1) := by omega
      have hrec := ih (a + 1) m (fun i h1 h2 => hfail i (by omega) (by omega))
        (by rw [hidx]; exact hok) (by omega)
      rw [fetchJsonAux_error_step he hm, hrec]
      simp [List.range'_succ]
/-- C8: with retries set to N (at least one), if the underlying fetch
fails on the first N-1 attempts and succeeds on the Nth, _fetch_json
returns that value after exactly N attempts; if all N attempts fail, it
re-raises the final attempt's error unmodified after exactly N attempts;
in both cases the backoff sleeps executed are exactly min(2^attempt, 5)
seconds after each non-final attempt (none after the last). -/
theorem C8_fetch_retries (fetch : Nat → Except String Nat) (N : Nat) (hN : 1 ≤ N) :
    ((∀ i, 1 ≤ i → i < N → ∃ e, fetch i = .error e) → ∀ v, fetch N = .ok v →
        fetchJson fetch N =
          (some (.ok v), N, (List.range' 1 (N - 1)).map (fun i => min (2 ^ i) 5)))
    ∧ (∀ err : Nat → String, (∀ i, 1 ≤ i → i ≤ N → fetch i = .error (err i)) →
        fetchJson fetch N =
          (some (.error (err N)), N,
            (List.range' 1 (N - 1)).map (fun i => min (2 ^ i) 5))) := by
  constructor
  · intro hfail v hok
    have h1 : 1 + (N - 1) = N := by omega
    have hres := fetchJsonAux_fail_then_ok fetch v (N - 1) 1 N
      (fun i hi1 hi2 => hfail i hi1 (by omega)) (by rw [h1]; exact hok) (by omega)
    have h2 : N - 1 + 1 = N := by omega
    rw [h2] at hres
    exact hres
  · intro err hfail
    obtain ⟨k, rfl⟩ : ∃ k, N = k + 1 := ⟨N - 1, by omega⟩
    have hres := fetchJsonAux_all_fail fetch err k 1 (fun i hi1 hi2 => hfail i hi1 (by omega))
    have h1 : 1 + k = k + 1 := by omega
    rw [h1] at hres
    simpa using hres

/-- A fetch that fails on attempts 1 and 2 and succeeds on attempt 3. -/
def fetchW1 : Nat → Except String Nat :=
  fun i => if i < 3 then .error ("e" ++ toString i) else .ok 7

/-- A fetch that always fails. -/
def fetchW2 : Nat → Except String Nat := fun _ => .error "boom"

theorem C8_witness :
    fetchJson fetchW1 3 = (some (.ok 7), 3, (List.range' 1 2).map (fun i => min (2 ^ i) 5))
    ∧ fetchJson fetchW2 3 =
        (some (.error "boom"), 3, (List.range' 1 2).map (fun i => min (2 ^ i) 5)) :=
  ⟨(C8_fetch_retries fetchW1 3 (by decide)).1
      (fun i h1 h2 => ⟨"e" ++ toString i, by simp [fetchW1, h2]⟩) 7 rfl,
   (C8_fetch_retries fetchW2 3 (by decide)).2 (fun _ => "boom") (fun i h1 h2 => rfl)⟩

end FetchMulti

namespace FetchMulti

/-! ### Lemmas about the expansion engine -/

theorem expandStorehouseRoutes_append (env : Env) (o : Oracles) (ecfg : ExpandCfg)
    (pid origin : String) (l1 l2 : List RouteEntry) :
    expandStorehouseRoutes env o ecfg pid origin (l1 ++ l2) =
      ((expandStorehouseRoutes env o ecfg pid origin l1).1
          ++ (expandStorehouseRoutes env o ecfg pid origin l2).1,
       (expandStorehouseRoutes env o ecfg pid origin l1).2.1
          ++ (expandStorehouseRoutes env o ecfg pid origin l2).2.1,
       (expandStorehouseRoutes env o ecfg pid origin l1).2.2
          ++ (expandStorehouseRoutes env o ecfg pid origin l2).2.2) := by
  induction l1 with
  | nil => simp [expandStorehouseRoutes]
  | cons e rest ih => simp [expandStorehouseRoutes, ih]

theorem expandEntry_fail {env : Env} {o : Oracles} {ecfg : ExpandCfg}
    {pid origin : String} {e : RouteEntry} {msg : String}
    (hfail : o.fetchLevel2 e.sourceUrl (ecfg.level2Field.getD "urls") = .error msg) :
    expandEntry env o ecfg pid origin e = (e, [], []) := by
  unfold expandEntry
  split
  · rfl
  · rw [hfail]

/-- An expand configuration with every optional key absent. -/
def expandCfgW : ExpandCfg :=
  { level2Field := none, level2OutputDir := none, level2PublicTemplates := none }

/-- A minimal run environment for witnesses. -/
def envW : Env :=
  { filters := noFilters, domesticTemplates := [], warehousePriority := none,
    pipelines := [], publicRepo := "me/repo", publicBranch := "main" }

/-- C5: during expansion, an entry whose level-2 fetch fails (request
error or non-list response, an oracle error) passes through unmodified —
its original sourceUrl stands, and no file is written and no artifact
registered for it — while the sibling entries before and after it are
expanded exactly as they would be on their own, so the enclosing pipeline
continues normally. -/
theorem C5_expand_entry_failure_isolated (env : Env) (o : Oracles) (ecfg : ExpandCfg)
    (pid origin : String) (pre post : List RouteEntry) (e : RouteEntry) (msg : String)
    (_hurl : ¬ e.sourceUrl = "")
    (hfail : o.fetchLevel2 e.sourceUrl (ecfg.level2Field.getD "urls") = .error msg) :
    expandStorehouseRoutes env o ecfg pid origin (pre ++ e :: post) =
      ((expandStorehouseRoutes env o ecfg pid origin pre).1
          ++ e :: (expandStorehouseRoutes env o ecfg pid origin post).1,
       (expandStorehouseRoutes env o ecfg pid origin pre).2.1
          ++ (expandStorehouseRoutes env o ecfg pid origin post).2.1,
       (expandStorehouseRoutes env o ecfg pid origin pre).2.2
          ++ (expandStorehouseRoutes env o ecfg pid origin post).2.2) := by
  rw [expandStorehouseRoutes_append]
  simp [expandStorehouseRoutes, expandEntry_fail hfail]

theorem C5_witness :
    expandStorehouseRoutes envW oStub expandCfgW "p" "o"
        ([⟨"A", "ua", "r"⟩] ++ ⟨"B", "ub", "r"⟩ :: [⟨"C", "uc", "r"⟩]) =
      ((expandStorehouseRoutes envW oStub expandCfgW "p" "o" [⟨"A", "ua", "r"⟩]).1
          ++ ⟨"B", "ub", "r"⟩ ::
            (expandStorehouseRoutes envW oStub expandCfgW "p" "o" [⟨"C", "uc", "r"⟩]).1,
       (expandStorehouseRoutes envW oStub expandCfgW "p" "o" [⟨"A", "ua", "r"⟩]).2.1
          ++ (expandStorehouseRoutes envW oStub expandCfgW "p" "o" [⟨"C", "uc", "r"⟩]).2.1,
       (expandStorehouseRoutes envW oStub expandCfgW "p" "o" [⟨"A", "ua", "r"⟩]).2.2
          ++ (expandStorehouseRoutes envW oStub expandCfgW "p" "o" [⟨"C", "uc", "r"⟩]).2.2) :=
  C5_expand_entry_failure_isolated envW oStub expandCfgW "p" "o"
    [⟨"A", "ua", "r"⟩] [⟨"C", "uc", "r"⟩] ⟨"B", "ub", "r"⟩ "network down"
    (by decide) rfl

/-! ### C1: fatal-error policy of the run entry point -/

/-- A local_urls_storehouse step without an expand configuration. -/
def pNoExpand : PipelineSpec := mkSpec "lu" "local_urls_storehouse"

/-- A merge step referencing an id that resolves to nothing. -/
def pMergeBad : PipelineSpec := { mkSpec "mg" "merge_storehouse" with inputs := ["missing"] }

/-- A step with a kind the dispatcher does not implement. -/
def pUnknown : PipelineSpec := mkSpec "uk" "bogus_kind"

/-- A configuration whose three steps exhibit the three per-step fatal
conditions the claim lists. -/
def envC1 : Env :=
  { filters := noFilters, domesticTemplates := [], warehousePriority := none,
    pipelines := [pNoExpand, pMergeBad, pUnknown], publicRepo := "r", publicBranch := "b" }

/-- Oracles for envC1: the local URL list reads fine, so only the missing
expand configuration makes that step fail. -/
def oC1 : Oracles := { oStub with readLocalUrls := fun _ _ => .ok [] }

/-- C1 counterexample: a run containing a local_urls_storehouse step
without expand, a merge step with an unresolved reference and a step of
unknown kind does not abort: it completes, recording the three exceptions
as per-step errors, refuting the claim that those conditions raise a
fatal error aborting the whole run. -/
theorem C1_counterexample_nonfatal_step_errors :
    runAborts envC1 oC1 = false
    ∧ runRecordErrors envC1 oC1 =
        [some "local_urls_storehouse 需要 expand 配置",
         some "依赖 pipeline missing 未生成数据",
         some "未实现的 pipeline kind: bogus_kind"] := by
  exact ⟨rfl, by decide⟩

/-- C1 (amended): the run raises a fatal error if and only if the
configured pipelines list is absent or empty; a missing expand
configuration on local_urls_storehouse, an unresolved reference in
merge_storehouse/copy_route and an unknown pipeline kind are caught by
the per-step handler, recorded as that step's error, and never abort the
run. -/
theorem C1_amended_fatal_iff_no_pipelines (env : Env) (o : Oracles) :
    (∃ msg, run env o = .error msg) ↔ env.pipelines = [] := by
  cases hp : env.pipelines with
  | nil => simp [run, hp]
  | cons q qs => simp [run, hp]

end FetchMulti

namespace FetchMulti

/-! ### C2: per-step failure recovery -/

theorem payloadStorehouse_default (k : String) :
    payloadStorehouse (defaultPayloadForKind k) = [] := by
  unfold defaultPayloadForKind
  split
  · rfl
  · split <;> rfl

theorem setStorehouse_default (k : String) :
    setStorehouse (defaultPayloadForKind k) [] = defaultPayloadForKind k := by
  unfold defaultPayloadForKind
  split
  · rfl
  · split <;> rfl

theorem expandPhase_default (env : Env) (o : Oracles) (p : PipelineSpec) :
    expandPhase env o p (defaultPayloadForKind p.kind) =
      (defaultPayloadForKind p.kind, [], []) := by
  unfold expandPhase
  cases hE : p.expand with
  | none => rfl
  | some ecfg =>
      by_cases hk : p.kind = "local_urls_storehouse"
      · simp [hk]
      · simp [hk, payloadStorehouse_default, expandStorehouseRoutes, setStorehouse_default]

theorem lookupCtx_head (ctx : List (String × Payload)) (id : String) (d : Payload) :
    lookupCtx ((id, d) :: ctx) id = some d := by
  simp [lookupCtx, List.find?]

theorem runStep_context (env : Env) (o : Oracles) (st : RunState) (p : PipelineSpec) :
    (runStep env o st p).context =
      (p.id, (expandPhase env o p (stepDataRaw env o st.context p)).1) :: st.context := rfl

/-- C2: when producing a step's payload raises any exception (the
dispatcher returns an error), the stored payload for that step is the
kind-appropriate empty default — storeHouse [] for the five
storehouse-shaped kinds, urls [] for remote_urls, the empty dict
otherwise — the message is recorded as the error field of exactly one
appended PipelineRecord, and execution continues (runStep is a total
function applied to every remaining step by the fold), so downstream
steps find a well-formed, possibly empty, payload in the context. -/
theorem C2_step_failure_recovers (env : Env) (o : Oracles) (st : RunState)
    (p : PipelineSpec) (msg : String)
    (h : dispatchPipeline env o st.context p = .error msg) :
    lookupCtx (runStep env o st p).context p.id = some (defaultPayloadForKind p.kind)
    ∧ (runStep env o st p).records = st.records ++
        [{ id := p.id, kind := p.kind, output := p.output, inputs := p.inputs,
           error := some msg }]
    ∧ ((p.kind = "remote_storehouse" ∨ p.kind = "local_storehouse" ∨
          p.kind = "local_urls_storehouse" ∨ p.kind = "merge_storehouse" ∨
          p.kind = "copy_route") →
        defaultPayloadForKind p.kind = .storehouse [])
    ∧ (p.kind = "remote_urls" → defaultPayloadForKind p.kind = .urls [])
    ∧ (¬ ((p.kind = "remote_storehouse" ∨ p.kind = "local_storehouse" ∨
            p.kind = "local_urls_storehouse" ∨ p.kind = "merge_storehouse" ∨
            p.kind = "copy_route") ∨ p.kind = "remote_urls") →
        defaultPayloadForKind p.kind = .empty) := by
  have hdata : stepDataRaw env o st.context p = defaultPayloadForKind p.kind := by
    unfold stepDataRaw
    rw [h]
  refine ⟨?_, ?_, ?_, ?_, ?_⟩
  · rw [runStep_context, hdata, expandPhase_default, lookupCtx_head]
  · have herr : stepError env o st.context p = some msg := by
      unfold stepError
      rw [h]
    rw [← herr]
    rfl
  · intro hk
    unfold defaultPayloadForKind
    rw [if_pos hk]
  · intro hk
    rw [hk]
    decide
  · intro hk
    unfold defaultPayloadForKind
    rw [if_neg (fun h5 => hk (Or.inl h5)), if_neg (fun hr => hk (Or.inr hr))]

theorem C2_witness :
    lookupCtx (runStep envW oStub initialState pUnknown).context pUnknown.id =
        some (defaultPayloadForKind pUnknown.kind)
    ∧ (runStep envW oStub initialState pUnknown).records = initialState.records ++
        [{ id := pUnknown.id, kind := pUnknown.kind, output := pUnknown.output,
           inputs := pUnknown.inputs, error := some "未实现的 pipeline kind: bogus_kind" }]
    ∧ ((pUnknown.kind = "remote_storehouse" ∨ pUnknown.kind = "local_storehouse" ∨
          pUnknown.kind = "local_urls_storehouse" ∨ pUnknown.kind = "merge_storehouse" ∨
          pUnknown.kind = "copy_route") →
        defaultPayloadForKind pUnknown.kind = .storehouse [])
    ∧ (pUnknown.kind = "remote_urls" → defaultPayloadForKind pUnknown.kind = .urls [])
    ∧ (¬ ((pUnknown.kind = "remote_storehouse" ∨ pUnknown.kind = "local_storehouse" ∨
            pUnknown.kind = "local_urls_storehouse" ∨ pUnknown.kind = "merge_storehouse" ∨
            pUnknown.kind = "copy_route") ∨ pUnknown.kind = "remote_urls") →
        defaultPayloadForKind pUnknown.kind = .empty) :=
  C2_step_failure_recovers envW oStub initialState pUnknown
    "未实现的 pipeline kind: bogus_kind" rfl

end FetchMulti

namespace FetchMulti

/-! ### C4: the bare-string branch of local_storehouse -/

/-- A local_storehouse step reading a local file. -/
def pC4 : PipelineSpec := { mkSpec "ls" "local_storehouse" with sourcePath := some "data/local.json" }

/-- Oracles whose local file holds a storeHouse field that is a non-empty
list of bare URL strings. -/
def oC4 : Oracles := { oStub with readLocal := fun _ => .ok [("storeHouse", .fStrs ["http://a/1"])] }

/-- A run configured with only the pC4 step. -/
def envC4 : Env :=
  { filters := noFilters, domesticTemplates := [], warehousePriority := none,
    pipelines := [pC4], publicRepo := "r", publicBranch := "b" }

/-- C4 (code bug): on a local file whose resolved field value is a
non-empty list of bare strings, the wrapping comprehension of
_run_local_storehouse reads the variable origin, which is bound nowhere
in that method, so the step raises NameError instead of returning the
wrapped sanitized entries; at run level the exception is caught, the
NameError message is recorded on the step's record and the step's
payload falls back to the empty storehouse default. -/
theorem C4_local_storehouse_bare_strings_name_error :
    runLocalStorehouse envC4 oC4 pC4 = .error "NameError: name 'origin' is not defined"
    ∧ runRecordErrors envC4 oC4 = [some "NameError: name 'origin' is not defined"]
    ∧ runContext envC4 oC4 "ls" = some (.storehouse []) := by
  refine ⟨rfl, by decide, by decide⟩

/-! ### C6: priority reordering -/

theorem priorityReorder_concat (es : List RouteEntry) (a : RouteEntry) :
    priorityReorder (es ++ [a]) = a :: es := by
  simp [priorityReorder, List.getLast?_concat, List.dropLast_concat]

/-- Three distinct sanitized entries. -/
def entA : RouteEntry := ⟨"A", "ua", "p"⟩

def entB : RouteEntry := ⟨"B", "ub", "p"⟩

def entC : RouteEntry := ⟨"C", "uc", "p"⟩

/-- A local_storehouse step with id p and no expand configuration. -/
def pC6 : PipelineSpec := { mkSpec "p" "local_storehouse" with sourcePath := some "d.json" }

/-- A local file whose storeHouse field holds three entries A, B, C. -/
def localDocC6 : List (String × LocalField) :=
  [("storeHouse", .fRaws [mkRaw "A" "ua", mkRaw "B" "ub", mkRaw "C" "uc"])]

/-- Oracles whose local file yields three entries A, B, C. -/
def oC6 : Oracles := { oStub with readLocal := fun _ => .ok localDocC6 }

/-- A run that prioritizes pipeline id p, whose only step has no expand
configuration. -/
def envC6 : Env :=
  { filters := noFilters, domesticTemplates := [], warehousePriority := some "p",
    pipelines := [pC6], publicRepo := "r", publicBranch := "b" }

/-- C6 counterexample: warehouse_priority names the step's id and the
step's resulting storeHouse list is the non-empty [a, b, c], yet because
the step declares no expand configuration the reordering code never runs
and the stored result stays [a, b, c] instead of the claimed [c, a, b]. -/
theorem C6_counterexample_no_reorder_without_expand :
    runContext envC6 oC6 "p" = some (.storehouse [entA, entB, entC])
    ∧ ¬ runContext envC6 oC6 "p" = some (.storehouse [entC, entA, entB]) := by
  refine ⟨by decide, by decide⟩

/-- C6 (amended): the last-to-front move happens only inside the
expansion block: for a step that declares an expand configuration, whose
kind is not local_urls_storehouse and whose id the run-level
warehouse_priority setting names, when the expanded storeHouse list is
the non-empty es ++ [a], the payload stored in the context carries
a :: es (so three entries [a, b, c] become [c, a, b]). -/
theorem C6_amended_priority_after_expand (env : Env) (o : Oracles) (st : RunState)
    (p : PipelineSpec) (ecfg : ExpandCfg) (es : List RouteEntry) (a : RouteEntry)
    (hex : p.expand = some ecfg)
    (hk : ¬ p.kind = "local_urls_storehouse")
    (hpri : env.warehousePriority = some p.id)
    (hexp : (expandStorehouseRoutes env o ecfg p.id (p.origin.getD p.id)
        (payloadStorehouse (stepDataRaw env o st.context p))).1 = es ++ [a]) :
    lookupCtx (runStep env o st p).context p.id =
      some (setStorehouse (stepDataRaw env o st.context p) (a :: es)) := by
  rw [runStep_context, lookupCtx_head]
  unfold expandPhase
  rw [hex]
  simp only [hk, if_false, ite_false, if_neg hk]
  rw [hexp]
  have hcond : env.warehousePriority = some p.id ∧ ¬ (es ++ [a] = []) := ⟨hpri, by simp⟩
  rw [if_pos hcond, priorityReorder_concat]

/-- A step like pC6 but with an expand configuration (the level-2 fetch
of oC6 always fails, so expansion leaves the three entries unchanged). -/
def pC6x : PipelineSpec := { pC6 with expand := some expandCfgW }

/-- envC6 with its single step declaring expand. -/
def envC6x : Env := { envC6 with pipelines := [pC6x] }

theorem C6_witness :
    lookupCtx (runStep envC6x oC6 initialState pC6x).context pC6x.id =
      some (setStorehouse (stepDataRaw envC6x oC6 initialState.context pC6x)
        (entC :: [entA, entB])) :=
  C6_amended_priority_after_expand envC6x oC6 initialState pC6x expandCfgW
    [entA, entB] entC rfl (by decide) rfl (by decide)

end FetchMulti

namespace FetchMulti

/-! ### C9: write events versus the artifact registry -/

/-- Whether a write produced a pipeline output or a nested storehouse
file (as opposed to one of the two summary documents). -/
def isArtifactWrite (w : WriteEvent) : Bool :=
  match w.content with
  | .payloadFile _ => true
  | .urlsFile _ => true
  | .summaryFile _ _ => false
  | .domesticFile _ => false

/-- All writes in the list are artifact-type writes. -/
def allArtifact (ws : List WriteEvent) : Bool := ws.all isArtifactWrite

/-- The registry lists exactly the artifact-type writes, by path and in
order. -/
def Paired (ws : List WriteEvent) (arts : List Artifact) : Prop :=
  arts.map (fun a => a.path) = (ws.filter isArtifactWrite).map (fun w => w.path)

theorem paired_append {w1 w2 : List WriteEvent} {a1 a2 : List Artifact}
    (h1 : Paired w1 a1) (h2 : Paired w2 a2) : Paired (w1 ++ w2) (a1 ++ a2) := by
  unfold Paired at *
  rw [List.map_append, List.filter_append, List.map_append, h1, h2]

theorem allArtifact_append (w1 w2 : List WriteEvent) :
    allArtifact (w1 ++ w2) = (allArtifact w1 && allArtifact w2) := by
  simp [allArtifact]

theorem runRemoteStorehouse_effects {env : Env} {o : Oracles} {p : PipelineSpec}
    {out : DispatchOut} (h : runRemoteStorehouse env o p = .ok out) :
    out.writes = [] ∧ out.artifacts = [] := by
  unfold runRemoteStorehouse at h
  split at h
  · cases h
  · cases h
    exact ⟨rfl, rfl⟩

theorem runLocalStorehouse_effects {env : Env} {o : Oracles} {p : PipelineSpec}
    {out : DispatchOut} (h : runLocalStorehouse env o p = .ok out) :
    out.writes = [] ∧ out.artifacts = [] := by
  unfold runLocalStorehouse at h
  split at h
  · cases h
  · split at h
    · cases h
      exact ⟨rfl, rfl⟩
    · cases h
    · cases h
      exact ⟨rfl, rfl⟩
    · cases h

theorem runMergeStorehouse_effects {ctx : List (String × Payload)} {p : PipelineSpec}
    {out : DispatchOut} (h : runMergeStorehouse ctx p = .ok out) :
    out.writes = [] ∧ out.artifacts = [] := by
  unfold runMergeStorehouse at h
  split at h
  · cases h
  · cases h
    exact ⟨rfl, rfl⟩

theorem runCopyRoute_effects {ctx : List (String × Payload)} {p : PipelineSpec}
    {out : DispatchOut} (h : runCopyRoute ctx p = .ok out) :
    out.writes = [] ∧ out.artifacts = [] := by
  unfold runCopyRoute at h
  split at h
  · cases h
  · cases h
    exact ⟨rfl, rfl⟩

theorem runLocalUrlsStorehouse_effects {env : Env} {o : Oracles} {p : PipelineSpec}
    {out : DispatchOut} (h : runLocalUrlsStorehouse env o p = .ok out) :
    Paired out.writes out.artifacts ∧ allArtifact out.writes = true := by
  unfold runLocalUrlsStorehouse at h
  split at h
  · cases h
  · split at h
    · cases h
    · cases h
      exact ⟨rfl, rfl⟩

theorem paired_of_nil {out : DispatchOut} (hw : out.writes = []) (ha : out.artifacts = []) :
    Paired out.writes out.artifacts ∧ allArtifact out.writes = true := by
  rw [hw, ha]
  exact ⟨rfl, rfl⟩

theorem dispatchPipeline_effects {env : Env} {o : Oracles} {ctx : List (String × Payload)}
    {p : PipelineSpec} {out : DispatchOut} (h : dispatchPipeline env o ctx p = .ok out) :
    Paired out.writes out.artifacts ∧ allArtifact out.writes = true := by
  unfold dispatchPipeline at h
  split at h
  · exact paired_of_nil (runRemoteStorehouse_effects h).1 (runRemoteStorehouse_effects h).2
  · split at h
    · exact paired_of_nil (runLocalStorehouse_effects h).1 (runLocalStorehouse_effects h).2
    · split at h
      · exact runLocalUrlsStorehouse_effects h
      · split at h
        · exact paired_of_nil (runMergeStorehouse_effects h).1 (runMergeStorehouse_effects h).2
        · split at h
          · exact paired_of_nil (runCopyRoute_effects h).1 (runCopyRoute_effects h).2
          · cases h

theorem expandEntry_effects (env : Env) (o : Oracles) (ecfg : ExpandCfg)
    (pid origin : String) (e : RouteEntry) :
    Paired (expandEntry env o ecfg pid origin e).2.1 (expandEntry env o ecfg pid origin e).2.2
    ∧ allArtifact (expandEntry env o ecfg pid origin e).2.1 = true := by
  unfold expandEntry
  split
  · exact ⟨rfl, rfl⟩
  · split
    · exact ⟨rfl, rfl⟩
    · exact ⟨rfl, rfl⟩

theorem expandRoutes_effects (env : Env) (o : Oracles) (ecfg : ExpandCfg)
    (pid origin : String) :
    ∀ l : List RouteEntry,
      Paired (expandStorehouseRoutes env o ecfg pid origin l).2.1
        (expandStorehouseRoutes env o ecfg pid origin l).2.2
      ∧ allArtifact (expandStorehouseRoutes env o ecfg pid origin l).2.1 = true := by
  intro l
  induction l with
  | nil => exact ⟨rfl, rfl⟩
  | cons e rest ih =>
      have he := expandEntry_effects env o ecfg pid origin e
      constructor
      · show Paired ((expandEntry env o ecfg pid origin e).2.1
            ++ (expandStorehouseRoutes env o ecfg pid origin rest).2.1)
          ((expandEntry env o ecfg pid origin e).2.2
            ++ (expandStorehouseRoutes env o ecfg pid origin rest).2.2)
        exact paired_append he.1 ih.1
      · show allArtifact ((expandEntry env o ecfg pid origin e).2.1
            ++ (expandStorehouseRoutes env o ecfg pid origin rest).2.1) = true
        rw [allArtifact_append, he.2, ih.2]
        rfl

theorem expandPhase_effects (env : Env) (o : Oracles) (p : PipelineSpec) (data : Payload) :
    Paired (expandPhase env o p data).2.1 (expandPhase env o p data).2.2
    ∧ allArtifact (expandPhase env o p data).2.1 = true := by
  unfold expandPhase
  split
  · split
    · exact ⟨rfl, rfl⟩
    · exact ⟨(expandRoutes_effects _ _ _ _ _ _).1, (expandRoutes_effects _ _ _ _ _ _).2⟩
  · exact ⟨rfl, rfl⟩

theorem outputPhase_effects (p : PipelineSpec) (data : Payload) :
    Paired (outputPhase p data).1 (outputPhase p data).2
    ∧ allArtifact (outputPhase p data).1 = true := by
  unfold outputPhase
  split
  · exact ⟨rfl, rfl⟩
  · exact ⟨rfl, rfl⟩

theorem stepDispatchEffects_effects (env : Env) (o : Oracles)
    (ctx : List (String × Payload)) (p : PipelineSpec) :
    Paired (stepDispatchEffects env o ctx p).1 (stepDispatchEffects env o ctx p).2
    ∧ allArtifact (stepDispatchEffects env o ctx p).1 = true := by
  unfold stepDispatchEffects
  split
  · rename_i out hout
    exact dispatchPipeline_effects hout
  · exact ⟨rfl, rfl⟩

theorem runStep_invariant (env : Env) (o : Oracles) {st : RunState} (p : PipelineSpec)
    (hp : Paired st.writes st.artifacts) (ha : allArtifact st.writes = true) :
    Paired (runStep env o st p).writes (runStep env o st p).artifacts
    ∧ allArtifact (runStep env o st p).writes = true := by
  have h0 := stepDispatchEffects_effects env o st.context p
  have h1 := expandPhase_effects env o p (stepDataRaw env o st.context p)
  have h2 := outputPhase_effects p (expandPhase env o p (stepDataRaw env o st.context p)).1
  constructor
  · show Paired (st.writes ++ (stepDispatchEffects env o st.context p).1
        ++ (expandPhase env o p (stepDataRaw env o st.context p)).2.1
        ++ (outputPhase p (expandPhase env o p (stepDataRaw env o st.context p)).1).1)
      (st.artifacts ++ (stepDispatchEffects env o st.context p).2
        ++ (expandPhase env o p (stepDataRaw env o st.context p)).2.2
        ++ (outputPhase p (expandPhase env o p (stepDataRaw env o st.context p)).1).2)
    exact paired_append (paired_append (paired_append hp h0.1) h1.1) h2.1
  · show allArtifact (st.writes ++ (stepDispatchEffects env o st.context p).1
        ++ (expandPhase env o p (stepDataRaw env o st.context p)).2.1
        ++ (outputPhase p (expandPhase env o p (stepDataRaw env o st.context p)).1).1) = true
    rw [allArtifact_append, allArtifact_append, allArtifact_append,
      ha, h0.2, h1.2, h2.2]
    rfl

theorem foldl_runStep_invariant (env : Env) (o : Oracles) :
    ∀ (ps : List PipelineSpec) (st : RunState),
      Paired st.writes st.artifacts → allArtifact st.writes = true →
      Paired (ps.foldl (runStep env o) st).writes (ps.foldl (runStep env o) st).artifacts
      ∧ allArtifact (ps.foldl (runStep env o) st).writes = true := by
  intro ps
  induction ps with
  | nil =>
      intro st hp ha
      exact ⟨hp, ha⟩
  | cons p rest ih =>
      intro st hp ha
      obtain ⟨hp2, ha2⟩ := runStep_invariant env o p hp ha
      exact ih _ hp2 ha2

theorem filter_not_of_allArtifact {ws : List WriteEvent} (h : allArtifact ws = true) :
    ws.filter (fun w => !isArtifactWrite w) = [] := by
  rw [List.filter_eq_nil_iff]
  intro w hw
  have hw2 := List.all_eq_true.mp h w hw
  simp [hw2]

end FetchMulti

namespace FetchMulti

/-! ### C9 fixtures and theorems -/

/-- A local_storehouse step with an expand configuration. -/
def pC9 : PipelineSpec :=
  { mkSpec "p" "local_storehouse" with sourcePath := some "d.json", expand := some expandCfgW }

/-- A local file with two entries sharing the name Same Name (hence the
same slug) but different URLs. -/
def localDocC9 : List (String × LocalField) :=
  [("storeHouse", .fRaws [mkRaw "Same Name" "http://a/1", mkRaw "Same Name" "http://a/2"])]

/-- Oracles for envC9: both level-2 fetches succeed with an empty list. -/
def oC9 : Oracles :=
  { oStub with readLocal := fun _ => .ok localDocC9, fetchLevel2 := fun _ _ => .ok [] }

/-- A run with the single expanding step pC9. -/
def envC9 : Env :=
  { filters := noFilters, domesticTemplates := [], warehousePriority := none,
    pipelines := [pC9], publicRepo := "r", publicBranch := "b" }

/-- C9 counterexample: in a concrete run the summary document
dist/meta/routes_summary.json is written to disk but never registered in
the artifact registry, and the artifact id p::same-name is registered
twice (two expansion entries share a slug), refuting both the claim that
every written file is registered and the claim that no artifact id is
registered more than once. -/
theorem C9_counterexample_summary_unregistered :
    "dist/meta/routes_summary.json" ∈ runWritePaths envC9 oC9
    ∧ ¬ "dist/meta/routes_summary.json" ∈ runArtifactPaths envC9 oC9
    ∧ ¬ (runArtifactIds envC9 oC9).Nodup := by
  refine ⟨by decide, by decide, by decide⟩

theorem writeSummary_artifacts (env : Env) (st : RunState) :
    (writeSummary env st).artifacts = st.artifacts := rfl

theorem writeDomesticLinks_artifacts (env : Env) (st : RunState) :
    (writeDomesticLinks env st).artifacts = st.artifacts := rfl

theorem writeSummary_writes (env : Env) (st : RunState) :
    (writeSummary env st).writes = st.writes ++ [summaryWrite env st] := rfl

theorem writeDomesticLinks_writes (env : Env) (st : RunState) :
    (writeDomesticLinks env st).writes = st.writes ++ [domesticWrite env st] := rfl

/-- C9 (amended): during a run, pipeline-output and nested-storehouse
writes are matched one-to-one, in order and by path, with the artifact
registrations (each such file is registered at write time), while the
two summary documents are exactly the writes that happen without any
registration; registry records are append-only values and are never
mutated after registration. Artifact ids are not necessarily unique
(expansion slugs can collide). -/
theorem C9_amended_artifact_writes_paired (env : Env) (o : Oracles) (st : RunState)
    (h : run env o = .ok st) :
    st.artifacts.map (fun a => a.path) =
        (st.writes.filter isArtifactWrite).map (fun w => w.path)
    ∧ (st.writes.filter (fun w => !isArtifactWrite w)).map (fun w => w.path) =
        ["dist/meta/routes_summary.json", "dist/meta/domestic_links.json"] := by
  unfold run at h
  split at h
  · cases h
  · cases h
    obtain ⟨hp, ha⟩ := foldl_runStep_invariant env o env.pipelines initialState rfl rfl
    rw [Paired] at hp
    constructor
    · rw [writeDomesticLinks_artifacts, writeSummary_artifacts,
        writeDomesticLinks_writes, writeSummary_writes, hp,
        List.filter_append, List.filter_append]
      simp [isArtifactWrite, summaryWrite, domesticWrite]
    · rw [writeDomesticLinks_writes, writeSummary_writes,
        List.filter_append, List.filter_append, filter_not_of_allArtifact ha]
      simp [isArtifactWrite, summaryWrite, domesticWrite]

/-- A merge step with no inputs: the simplest successful pipeline. -/
def pW9 : PipelineSpec := mkSpec "m" "merge_storehouse"

/-- A run with the single step pW9. -/
def envW9 : Env :=
  { filters := noFilters, domesticTemplates := [], warehousePriority := none,
    pipelines := [pW9], publicRepo := "r", publicBranch := "b" }

/-- The final state of the run of envW9. -/
def stW9 : RunState :=
  writeDomesticLinks envW9
    (writeSummary envW9 (envW9.pipelines.foldl (runStep envW9 oStub) initialState))

theorem C9_witness :
    stW9.artifacts.map (fun a => a.path) =
        (stW9.writes.filter isArtifactWrite).map (fun w => w.path)
    ∧ (stW9.writes.filter (fun w => !isArtifactWrite w)).map (fun w => w.path) =
        ["dist/meta/routes_summary.json", "dist/meta/domestic_links.json"] :=
  C9_amended_artifact_writes_paired envW9 oStub stW9 rfl

end FetchMulti
